import Mathlib

set_option maxHeartbeats 1000000
set_option maxRecDepth 8192

/-
Verification development for the download-orchestration core of a Telegram
"save as" bot (yt-dlp wrapper).  JS strings are modelled as `List Char`
(UTF-16 code-unit level `List Nat` for the caption builder, whose length
budget counts code units).  Child-process interaction, timers and the
filesystem are modelled by explicit outcome records and by traces of the
filesystem/spawn actions the orchestrator performs.
-/

/-- Convert an ASCII Lean string literal into the `List Char` model of a JS string. -/
def lit (s : String) : List Char := s.toList

/-- JS `String.prototype.includes`: substring containment test. -/
def includesL (needle hay : List Char) : Bool := decide (needle <:+: hay)

/-- JS `String.prototype.toLowerCase`; `Char.toLower` agrees with it on ASCII,
which is the only range the classifier's patterns live in. -/
def lowerL (l : List Char) : List Char := l.map Char.toLower

/-- `Downloader.parseYtDlpError` (src/src/services/downloader.ts:334-354):
case-insensitive substring rules over the captured stderr, first match wins. -/
def parseYtDlpError (errorOutput : List Char) : List Char :=
  let lowerError := lowerL errorOutput
  if includesL (lit "private") lowerError then
    lit "This content is private or requires authentication"
  else if includesL (lit "geo") lowerError || includesL (lit "blocked") lowerError then
    lit "This content is not available in your region"
  else if includesL (lit "unavailable") lowerError || includesL (lit "deleted") lowerError then
    lit "This content is no longer available"
  else if includesL (lit "unsupported") lowerError then
    lit "This URL is not supported"
  else if includesL (lit "sign in") lowerError || includesL (lit "login") lowerError then
    lit "Authentication required to access this content"
  else
    lit "Failed to download content"

/-- ASCII part of the whitespace class used by JS `trim` and `parseInt`
(the Unicode space characters are omitted; configuration strings are ASCII). -/
def jsIsWhite (c : Char) : Bool :=
  c == ' ' || c == '\t' || c == '\n' || c == '\r' || c == '\x0b' || c == '\x0c'

/-- JS `String.prototype.trim`. -/
def jsTrim (s : List Char) : List Char :=
  ((s.dropWhile jsIsWhite).reverse.dropWhile jsIsWhite).reverse

/-- JS `String.prototype.split(',')`: `"" ↦ [""]`, separators produce empty tokens. -/
def splitComma : List Char → List (List Char)
  | [] => [[]]
  | c :: cs =>
    if c = ',' then [] :: splitComma cs
    else
      match splitComma cs with
      | t :: ts => (c :: t) :: ts
      | [] => [[c]]

/-- Value of a block of decimal digit characters. -/
def digitsToNat (ds : List Char) : Nat :=
  ds.foldl (fun a c => a * 10 + (c.toNat - 48)) 0

/-- JS `parseInt(s, 10)`: skip whitespace, optional sign, take leading decimal
digits, `NaN` (here `none`) when no digit is found.  Modelled exactly over `Int`;
JS doubles only round beyond 2^53, far above Telegram user identifiers. -/
def jsParseInt10 (s : List Char) : Option Int :=
  let s1 := s.dropWhile jsIsWhite
  let signAndRest : Int × List Char :=
    match s1 with
    | '-' :: r => (-1, r)
    | '+' :: r => (1, r)
    | _ => (1, s1)
  let ds := signAndRest.2.takeWhile Char.isDigit
  if ds = [] then none else some (signAndRest.1 * (digitsToNat ds : Int))

/-- JS `Set` insertion: keep an element only when it has not been seen yet. -/
def dedupSeen {α : Type} [DecidableEq α] : List α → List α → List α
  | _, [] => []
  | seen, x :: xs =>
    if x ∈ seen then dedupSeen seen xs else x :: dedupSeen (x :: seen) xs

/-- Order-preserving removal of duplicates, first occurrence wins: the behaviour
of building a JS `Set` from an array and spreading it back, and of `new Set`
insertion order in `AccessControl`. -/
def dedupFirst {α : Type} [DecidableEq α] (l : List α) : List α :=
  dedupSeen [] l

/-- The member list of `AccessControl.allowedUserIds` (src/unnamed/part_001:6-15):
split on commas, trim, `parseInt`, drop `NaN`s, collect into a `Set`. -/
def allowedUserIds (env : List Char) : List Int :=
  dedupFirst (((splitComma env).map (fun id => jsParseInt10 (jsTrim id))).filterMap (fun x => x))

/-- `AccessControl.isAllowed` (src/unnamed/part_001:17-19). -/
def isAllowed (env : List Char) (userId : Int) : Bool :=
  (allowedUserIds env).contains userId

/-- The Instagram detection in `runYtDlp`/`runYtDlpLowerQuality`
(src/src/services/downloader.ts:85,234): `url.includes('instagram.com')` —
a substring check on the whole URL string. -/
def isInstagramUrl (url : List Char) : Bool := includesL (lit "instagram.com") url

/-- The `-f` format selector used by the Instagram branch, by attempt tier. -/
def instaSelector (lower : Bool) : List Char :=
  if lower then
    lit "bestvideo[height<=480][ext=mp4]+bestaudio[ext=m4a]/best[height<=480][ext=mp4]/best"
  else
    lit "bestvideo[ext=mp4]+bestaudio[ext=m4a]/best[ext=mp4]/best"

/-- The `-f` format selector used by the generic branch, by attempt tier. -/
def genericSelector (lower : Bool) : List Char :=
  if lower then lit "bestvideo[height<=480]+bestaudio/best[height<=480]/best"
  else lit "bestvideo+bestaudio/best"

/-- Argument vector passed to `spawn('yt-dlp', args)` by `runYtDlp`
(src/src/services/downloader.ts:87-110) and, with `lower := true`, by
`runYtDlpLowerQuality` (src/src/services/downloader.ts:236-259); the two source
functions are verbatim copies except for the format selector. -/
def ytDlpArgs (url outputPath : List Char) (lower : Bool) : List (List Char) :=
  [lit "--no-playlist", lit "--no-progress"] ++
  (if isInstagramUrl url then
     [lit "-f", instaSelector lower,
      lit "--merge-output-format", lit "mp4",
      lit "--postprocessor-args",
      lit "ffmpeg:-c:v libx264 -c:a aac -pix_fmt yuv420p -movflags +faststart"]
   else
     [lit "-f", genericSelector lower,
      lit "--merge-output-format", lit "mp4",
      lit "--remux-video", lit "mp4"]) ++
  [lit "-o", outputPath, url]

/-- Drop everything up to and including the first `://` of a URL. -/
def dropSchemeSep : List Char → List Char
  | [] => []
  | ':' :: '/' :: '/' :: rest => rest
  | _ :: cs => dropSchemeSep cs

/-- Modelled from the spec: "a simple substring check on the URL's host" —
the source has no host extraction, so the host component named by the spec is
modelled here as the authority part of the URL: what follows the `://`
separator up to the first `/`, `?` or `#`. -/
def specHost (url : List Char) : List Char :=
  (dropSchemeSep url).takeWhile (fun c => !(c == '/') && !(c == '?') && !(c == '#'))

/-
URL extraction (src/src/utils/url.ts:1-9).  The source matches the regex
  /(https?:\/\/(?:www\.)?[-a-zA-Z0-9@:%._+~#=]{1,256}\.[a-zA-Z0-9()]{1,6}\b(?:[-a-zA-Z0-9()@:%_+.~#?&\/=]*))/gi
globally and spreads the matches through a Set.  The matcher below is a
backtracking evaluator specialised to exactly this pattern, with JS semantics:
greedy quantifiers with backtracking, `\b` as an ASCII word boundary, the `i`
flag on the literals (the character classes already contain both cases), and
global scanning that resumes after the end of each match.
-/

/-- Character class `[-a-zA-Z0-9@:%._+~#=]`. -/
def isC1 (c : Char) : Bool :=
  c == '-' || c.isAlpha || c.isDigit || c == '@' || c == ':' || c == '%' || c == '.' ||
  c == '_' || c == '+' || c == '~' || c == '#' || c == '='

/-- Character class `[a-zA-Z0-9()]`. -/
def isC2 (c : Char) : Bool := c.isAlpha || c.isDigit || c == '(' || c == ')'

/-- Character class `[-a-zA-Z0-9()@:%_+.~#?&/=]`. -/
def isC3 (c : Char) : Bool :=
  c == '-' || c.isAlpha || c.isDigit || c == '(' || c == ')' || c == '@' || c == ':' ||
  c == '%' || c == '_' || c == '+' || c == '.' || c == '~' || c == '#' || c == '?' ||
  c == '&' || c == '/' || c == '='

/-- JS `\w` (ASCII, no `u` flag): `[A-Za-z0-9_]`. -/
def isWordChar (c : Char) : Bool := c.isAlpha || c.isDigit || c == '_'

/-- Match a lowercase literal case-insensitively, returning the rest of the input. -/
def stripCI : List Char → List Char → Option (List Char)
  | [], cs => some cs
  | _ :: _, [] => none
  | p :: ps, c :: cs => if c.toLower == p then stripCI ps cs else none

/-- Whether the next character (if any) is a word character, for `\b`. -/
def nextIsWord : List Char → Bool
  | [] => false
  | c :: _ => isWordChar c

/-- Greedy `[a-zA-Z0-9()]{1,6}\b(?:[-a-zA-Z0-9()@:%_+.~#?&/=]*)`: try a label of
`j` characters, check the word boundary after it, then let the final `*` consume
greedily; on failure backtrack to a shorter label. -/
def tryTld (afterDot : List Char) : Nat → Option (List Char)
  | 0 => none
  | j + 1 =>
    match afterDot.drop j with
    | [] => tryTld afterDot j
    | p :: rest =>
      if isWordChar p != nextIsWord rest then some (rest.dropWhile isC3)
      else tryTld afterDot j

/-- Entry point for the part of the pattern after the literal dot. -/
def matchTld (afterDot : List Char) : Option (List Char) :=
  tryTld afterDot (min ((afterDot.takeWhile isC2).length) 6)

/-- Greedy `[-a-zA-Z0-9@:%._+~#=]{1,256}\.` followed by the TLD part: try `k`
class characters, require a literal `.`, then the TLD; backtrack on failure. -/
def tryHost (cs : List Char) : Nat → Option (List Char)
  | 0 => none
  | k + 1 =>
    match cs.drop (k + 1) with
    | '.' :: afterDot =>
      match matchTld afterDot with
      | some rest => some rest
      | none => tryHost cs k
    | _ => tryHost cs k

/-- Entry point for the host-and-path part of the pattern. -/
def matchHostTld (cs : List Char) : Option (List Char) :=
  tryHost cs (min ((cs.takeWhile isC1).length) 256)

/-- Greedy `(?:www\.)?` with backtracking against the rest of the pattern. -/
def matchAfterSep (cs : List Char) : Option (List Char) :=
  match stripCI [ 'w', 'w', 'w', '.'] cs with
  | some cs1 =>
    match matchHostTld cs1 with
    | some rest => some rest
    | none => matchHostTld cs
  | none => matchHostTld cs

/-- The `://` literal followed by the rest of the pattern. -/
def matchSepOn (cs : List Char) : Option (List Char) :=
  match stripCI [ ':', '/', '/'] cs with
  | some cs1 => matchAfterSep cs1
  | none => none

/-- `https?` (case-insensitive, greedy `s?` with backtracking) and the rest. -/
def matchScheme (cs : List Char) : Option (List Char) :=
  match stripCI [ 'h', 't', 't', 'p'] cs with
  | none => none
  | some cs1 =>
    match cs1 with
    | c :: cs2 =>
      if c.toLower == 's' then
        match matchSepOn cs2 with
        | some rest => some rest
        | none => matchSepOn cs1
      else matchSepOn cs1
    | [] => matchSepOn cs1

/-- Length of the regex match anchored at the start of `cs`, if any. -/
def matchAt (cs : List Char) : Option Nat :=
  match matchScheme cs with
  | some rest => some (cs.length - rest.length)
  | none => none

/-- Global scan: leftmost matches, resuming after the end of each match
(an empty match would advance by one, as JS does; this pattern never produces
one).  Each step consumes at least one character, so fuel equal to the input
length is always sufficient; the fuel only makes the recursion structural. -/
def urlMatchesAux : Nat → List Char → List (List Char)
  | 0, _ => []
  | _ + 1, [] => []
  | fuel + 1, c :: cs =>
    match matchAt (c :: cs) with
    | none => urlMatchesAux fuel cs
    | some n =>
      if n = 0 then [] :: urlMatchesAux fuel cs
      else (c :: cs).take n :: urlMatchesAux fuel ((c :: cs).drop n)

/-- `text.match(URL_REGEX)` with the `g` flag: the list of matched substrings. -/
def urlMatches (text : List Char) : List (List Char) :=
  urlMatchesAux text.length text

/-- `extractUrls` (src/src/utils/url.ts:3-9): `null` match result yields `[]`,
otherwise the matches are deduplicated through a `Set` (first occurrence wins). -/
def extractUrls (text : List Char) : List (List Char) :=
  match urlMatches text with
  | [] => []
  | ms => dedupFirst ms

/-
Download orchestration (src/src/services/downloader.ts).  One yt-dlp run is
described by a `ProcRun`: whether the child process emitted its `close`/`error`
event before the wall-clock deadline, and which event it was (exit code plus
the workspace listing the close handler reads, or a spawn error).  The
filesystem operations and process spawns the orchestrator performs are
collected into a trace of `Act`s; `createTempDir(requestId)` always yields
`cwd/temp/<requestId>` (the constant cwd prefix is omitted), so both tiers of
one request share the same workspace path.
-/

/-- Outcome of one download attempt (`DownloadResult`,
src/src/services/downloader.ts:8-14); absent JS fields are `none`. -/
structure DownloadResult where
  success : Bool
  filePath : Option (List Char) := none
  title : Option (List Char) := none
  error : Option (List Char) := none
  fileSize : Option Nat := none
deriving DecidableEq

/-- `DownloaderConfig` (src/src/services/downloader.ts:16-19). -/
structure DownloaderConfig where
  downloadTimeout : Nat
  maxFileSizeMB : Nat

/-- Default `DOWNLOAD_TIMEOUT` in seconds (src/unnamed/part_000, index.ts:
`parseInt(process.env.DOWNLOAD_TIMEOUT || '120', 10)`). -/
def defaultDownloadTimeout : Nat := 120

/-- The terminating event of a yt-dlp child process: a `close` with an exit
code, the accumulated stderr, and the directory listing the handler then reads
(`none` when `fs.readdir` throws), or the `error` event of a failed spawn. -/
inductive ExitEvent where
  | close (code : Int) (stderr : List Char) (readdir : Option (List (List Char)))
  | spawnErr (msg : List Char)
deriving DecidableEq

/-- One child-process run: did its terminating event fire before the
`downloadTimeout` deadline, and which event was it. -/
structure ProcRun where
  exitsWithinTimeout : Bool
  exit : ExitEvent
deriving DecidableEq

/-- Everything external a single `download(url)` call can observe: the two
possible yt-dlp runs and the two possible `fs.stat` results (`throw` is a
rejected stat, routed to the surrounding catch). -/
inductive StatRes where
  | ok (size : Nat)
  | throw (msg : List Char)
deriving DecidableEq

structure DlWorld where
  run1 : ProcRun
  stat1 : StatRes
  run2 : ProcRun
  stat2 : StatRes
deriving DecidableEq

/-- Filesystem/spawn actions performed by the orchestrator and delivery path. -/
inductive Act where
  | createDir (path : List Char)
  | spawnProc (args : List (List Char))
  | remove (path : List Char)
deriving DecidableEq

/-- POSIX `path.join` for the simple names used here. -/
def pathJoin (a b : List Char) : List Char := a ++ '/' :: b

/-- `createTempDir(requestId)` workspace path (src/src/utils/temp.ts:7-12). -/
def tempDirOf (rid : List Char) : List Char := pathJoin (lit "temp") rid

/-- The `-o` output template (src/src/services/downloader.ts:82,231). -/
def outputPathOf (tempDir : List Char) : List Char :=
  pathJoin tempDir (lit "%(title)s.%(ext)s")

/-- The video-container filter applied to the workspace listing
(src/src/services/downloader.ts:144-146). -/
def endsWithL (suffix l : List Char) : Bool := decide (suffix <:+ l)

def isVideoFile (f : List Char) : Bool :=
  endsWithL (lit ".mp4") f || endsWithL (lit ".mkv") f ||
  endsWithL (lit ".webm") f || endsWithL (lit ".mov") f

/-- Node `path.extname`: the suffix from the last dot, empty when there is no
dot or the only dot leads the name. -/
def extname (f : List Char) : List Char :=
  let i := f.reverse.findIdx (fun c => c == '.')
  if i < f.length then
    let di := f.length - 1 - i
    if di = 0 then [] else f.drop di
  else []

/-- `path.basename(videoFile, path.extname(videoFile))`: strip the extension. -/
def basenameNoExt (f : List Char) : List Char :=
  f.take (f.length - (extname f).length)

/-- `title || 'Unknown'` (src/src/services/downloader.ts:150-154). -/
def titleOf (f : List Char) : List Char :=
  let t := basenameNoExt f
  if t = [] then lit "Unknown" else t

/-- What one `runYtDlp`/`runYtDlpLowerQuality` promise settles to, together
with whether the timeout handler killed the process and whether `clearTimeout`
cancelled the timer before it could fire. -/
structure RunOutcome where
  result : DownloadResult
  killed : Bool
  timerCleared : Bool
deriving DecidableEq

/-- `Downloader.runYtDlp` (src/src/services/downloader.ts:76-185): if the
deadline passes before the child exits, the timeout handler kills the process
and resolves a timeout failure; otherwise the `close`/`error` handler first
calls `clearTimeout` and then resolves from the exit code, the workspace
listing and the captured stderr.  `runYtDlpLowerQuality` (lines 225-332) is a
verbatim copy except for the spawn arguments, so it shares this model. -/
def runYtDlp (tempDir : List Char) (run : ProcRun) : RunOutcome :=
  if run.exitsWithinTimeout then
    match run.exit with
    | .close code stderr readdir =>
      { timerCleared := true, killed := false,
        result :=
          if code = 0 then
            match readdir with
            | some files =>
              match files.find? isVideoFile with
              | some f =>
                { success := true, filePath := some (pathJoin tempDir f),
                  title := some (titleOf f) }
              | none =>
                { success := false,
                  error := some (lit "No video file found after download") }
            | none =>
              { success := false,
                error := some (lit "Failed to find downloaded file") }
          else
            { success := false, error := some (parseYtDlpError stderr) } }
    | .spawnErr msg =>
      { timerCleared := true, killed := false,
        result :=
          { success := false,
            error := some (lit "yt-dlp failed to start: " ++ msg) } }
  else
    { timerCleared := false, killed := true,
      result := { success := false, error := some (lit "Download timeout") } }

/-- The oversize test `stats.size / (1024 * 1024) > maxFileSizeMB`
(src/src/services/downloader.ts:46,54).  The JS division is by 2^20, which is
exact in binary floating point, so the comparison equals this integer one. -/
def oversize (cfg : DownloaderConfig) (size : Nat) : Bool :=
  size > cfg.maxFileSizeMB * 1048576

/-- `Downloader.downloadLowerQuality` (src/src/services/downloader.ts:187-223):
recreate the (same-named) workspace, run the height-capped attempt, stat the
output and return it as a success of that size — with no size re-check —
cleaning the workspace on failure or stat exception. -/
def downloadLowerQuality (cfg : DownloaderConfig) (rid url : List Char) (w : DlWorld) :
    DownloadResult × List Act :=
  let tempDir := tempDirOf rid
  let acts := [Act.createDir tempDir,
               Act.spawnProc (ytDlpArgs url (outputPathOf tempDir) true)]
  let o := runYtDlp tempDir w.run2
  if o.result.success = false then (o.result, acts ++ [Act.remove tempDir])
  else
    match w.stat2 with
    | .throw msg => ({ success := false, error := some msg }, acts ++ [Act.remove tempDir])
    | .ok size =>
      ({ success := true, filePath := o.result.filePath, title := o.result.title,
         fileSize := some size }, acts)

/-- `Downloader.download` (src/src/services/downloader.ts:28-74): allocate the
workspace, run the primary attempt; on failure clean up and return it; stat the
output (a rejection lands in the catch, which cleans up and fails); on an
oversize result clean up and delegate to the lower-quality tier; otherwise
return the success, leaving the workspace for the delivery path. -/
def download (cfg : DownloaderConfig) (rid url : List Char) (w : DlWorld) :
    DownloadResult × List Act :=
  let tempDir := tempDirOf rid
  let acts := [Act.createDir tempDir,
               Act.spawnProc (ytDlpArgs url (outputPathOf tempDir) false)]
  let o := runYtDlp tempDir w.run1
  if o.result.success = false then (o.result, acts ++ [Act.remove tempDir])
  else
    match w.stat1 with
    | .throw msg => ({ success := false, error := some msg }, acts ++ [Act.remove tempDir])
    | .ok size =>
      if oversize cfg size then
        let r := downloadLowerQuality cfg rid url w
        (r.1, (acts ++ [Act.remove tempDir]) ++ r.2)
      else
        ({ success := true, filePath := o.result.filePath, title := o.result.title,
           fileSize := some size }, acts)

/-- The spawn arguments occurring in a trace, in order. -/
def spawnArgsOf (acts : List Act) : List (List (List Char)) :=
  acts.filterMap (fun a =>
    match a with
    | .spawnProc args => some args
    | _ => none)

/-- Filesystem trace of `Bot.processUrl` plus `Bot.sendVideo`
(src/src/utils/url.ts:126-218, bot.ts): run `download`; on success the delivery
path's `finally` calls `cleanupTempDir(result.filePath)` — removing the file at
`filePath`, not the workspace directory; on failure only the status message is
edited.  Chat operations are outside the trace. -/
def processUrlActs (cfg : DownloaderConfig) (rid url : List Char) (w : DlWorld) :
    List Act :=
  let r := download cfg rid url w
  if r.1.success then
    r.2 ++ (match r.1.filePath with
            | some fp => [Act.remove fp]
            | none => [])
  else r.2

/-
Message handling and session/cooldown tracking (src/src/utils/url.ts, bot.ts:
`Bot.setupHandlers`, lines 70-117).  One inbound text message is processed by:
a falsy-text early return, the access check, the busy check, the cooldown
check, URL extraction, then — for an accepted batch — a check-then-set of the
session entry followed by sequential processing inside `try { ... } finally
{ reset }`.  `now` is the `Date.now()` of acceptance and `endTime` the
`Date.now()` of the `finally` block; whether an exception escaped a
`processUrl` call (e.g. a rejected Telegram edit) is the `BatchOutcome`.
-/

/-- `SessionData` (bot.ts lines 26-29). -/
structure SessionData where
  isProcessing : Bool
  lastRequestTime : Int
deriving DecidableEq

/-- How the handler disposes of one inbound message. -/
inductive Gate where
  | noText
  | denied
  | busy
  | tooSoon
  | noUrl
  | accepted (urls : List (List Char))
deriving DecidableEq

/-- `session?.isProcessing` truthiness (bot.ts line 91). -/
def optIsProcessing : Option SessionData → Bool
  | some s => s.isProcessing
  | none => false

/-- `session && Date.now() - session.lastRequestTime < this.cooldownMs`
(bot.ts line 95, cooldownMs = 5000). -/
def cooldownHit (session : Option SessionData) (now : Int) : Bool :=
  match session with
  | some s => decide (now - s.lastRequestTime < 5000)
  | none => false

/-- The early-return cascade of the message handler (bot.ts lines 74-103). -/
def gateOf (allowed : Bool) (session : Option SessionData) (now : Int)
    (text : List Char) : Gate :=
  if text = [] then .noText
  else if allowed = false then .denied
  else if optIsProcessing session then .busy
  else if cooldownHit session now then .tooSoon
  else
    match extractUrls text with
    | [] => .noUrl
    | u :: us => .accepted (u :: us)

/-- Whether the sequential `for` loop over the batch ran to completion or an
exception escaped one of its `processUrl` calls. -/
inductive BatchOutcome where
  | completed
  | threw
deriving DecidableEq

/-- One full pass of the message handler for user `uid`: the gate decision,
the session map while the batch is running, and the session map after the
handler returns.  For an accepted batch the entry is set to
`{isProcessing := true, lastRequestTime := now}` before processing and the
`finally` block sets `{isProcessing := false, lastRequestTime := endTime}` on
both batch outcomes; every other gate leaves the map untouched. -/
def messageStep (allowed : Bool) (sessions : Int → Option SessionData) (uid : Int)
    (text : List Char) (now endTime : Int) (batch : BatchOutcome) :
    Gate × ((Int → Option SessionData) × (Int → Option SessionData)) :=
  match gateOf allowed (sessions uid) now text with
  | .accepted urls =>
    let during := fun k => if k = uid then some ⟨true, now⟩ else sessions k
    let final :=
      match batch with
      | .completed => fun k => if k = uid then some ⟨false, endTime⟩ else during k
      | .threw => fun k => if k = uid then some ⟨false, endTime⟩ else during k
    (.accepted urls, during, final)
  | g => (g, sessions, sessions)

/-
Caption construction (`Bot.buildCaption`, bot.ts lines 220-240).  The 1024
budget and the `substring(0, 1021)` cut count UTF-16 code units — the 🔗
character alone occupies two — so this part of the model represents JS strings
as lists of code units (`List Nat`).
-/

/-- Code units of an ASCII Lean string literal. -/
def asciiUnits (s : String) : List Nat := s.toList.map Char.toNat

/-- JS `String.prototype.replace` with a global single-character pattern and a
plain replacement string, over code units. -/
def replaceAllU (target : Nat) (rep : List Nat) (s : List Nat) : List Nat :=
  s.flatMap (fun u => if u = target then rep else [u])

/-- The escape chain `.replace(/&/g,'&amp;').replace(/</g,'&lt;').replace(/>/g,'&gt;')`. -/
def escapeHtml (t : List Nat) : List Nat :=
  replaceAllU 62 (asciiUnits "&gt;")
    (replaceAllU 60 (asciiUnits "&lt;")
      (replaceAllU 38 (asciiUnits "&amp;") t))

/-- `title && title !== 'Unknown'`: a present, non-empty, non-placeholder title. -/
def titleShown : Option (List Nat) → Bool
  | none => false
  | some t => decide (t ≠ [] ∧ t ≠ asciiUnits "Unknown")

/-- The source-link line `\n🔗 <a href="${url}">Source</a>`; U+1F517 is the
surrogate pair D83D DD17 in UTF-16. -/
def linkLineU (url : List Nat) : List Nat :=
  asciiUnits "\n" ++ [0xD83D, 0xDD17] ++ asciiUnits " <a href=\"" ++ url ++
  asciiUnits "\">Source</a>"

/-- The assembled caption before the length check (bot.ts lines 221-232). -/
def rawCaption (url : List Nat) (title : Option (List Nat)) : List Nat :=
  (match title with
   | some t =>
     if t ≠ [] ∧ t ≠ asciiUnits "Unknown" then
       asciiUnits "<b>" ++ escapeHtml t ++ asciiUnits "</b>\n"
     else []
   | none => []) ++ linkLineU url

/-- `Bot.buildCaption` (bot.ts lines 220-240): truncate to
`substring(0, 1021) + '...'` when over the 1024-unit budget. -/
def buildCaption (url : List Nat) (title : Option (List Nat)) : List Nat :=
  let caption := rawCaption url title
  if caption.length > 1024 then caption.take 1021 ++ asciiUnits "..."
  else caption
/-- Membership in `dedupSeen`: an element of the output is an unseen element
of the input. -/
theorem mem_dedupSeen {α : Type} [DecidableEq α] (seen l : List α) (a : α) :
    a ∈ dedupSeen seen l ↔ a ∈ l ∧ a ∉ seen := by
  induction l generalizing seen with
  | nil => simp [dedupSeen]
  | cons x xs ih =>
    by_cases hx : x ∈ seen
    · rw [dedupSeen, if_pos hx, ih]
      by_cases ha : a = x <;> simp [ha, hx]
    · rw [dedupSeen, if_neg hx, List.mem_cons, ih, List.mem_cons]
      by_cases ha : a = x <;> simp [ha, hx]

/-- `dedupSeen` never emits a duplicate. -/
theorem nodup_dedupSeen {α : Type} [DecidableEq α] (seen l : List α) :
    (dedupSeen seen l).Nodup := by
  induction l generalizing seen with
  | nil => simp [dedupSeen]
  | cons x xs ih =>
    rw [dedupSeen]
    by_cases hx : x ∈ seen
    · rw [if_pos hx]; exact ih seen
    · rw [if_neg hx]
      refine List.nodup_cons.mpr ⟨?_, ih (x :: seen)⟩
      intro hmem
      rw [mem_dedupSeen] at hmem
      exact hmem.2 (List.mem_cons_self x seen)

/-- `dedupSeen` preserves the order of the input. -/
theorem sublist_dedupSeen {α : Type} [DecidableEq α] (seen l : List α) :
    (dedupSeen seen l).Sublist l := by
  induction l generalizing seen with
  | nil => simp [dedupSeen]
  | cons x xs ih =>
    rw [dedupSeen]
    by_cases hx : x ∈ seen
    · rw [if_pos hx]; exact (ih seen).cons x
    · rw [if_neg hx]; exact (ih (x :: seen)).cons₂ x

/-- A list of already-seen elements deduplicates to nothing. -/
theorem dedupSeen_all_seen {α : Type} [DecidableEq α] (seen l : List α)
    (h : ∀ y ∈ l, y ∈ seen) : dedupSeen seen l = [] := by
  induction l with
  | nil => rfl
  | cons x xs ih =>
    rw [dedupSeen, if_pos (h x (List.mem_cons_self x xs))]
    exact ih (fun y hy => h y (List.mem_cons_of_mem x hy))

/-- `dedupFirst` preserves membership. -/
theorem mem_dedupFirst {α : Type} [DecidableEq α] (l : List α) (a : α) :
    a ∈ dedupFirst l ↔ a ∈ l := by
  rw [dedupFirst, mem_dedupSeen]
  simp

/-- `dedupFirst` output has no duplicates. -/
theorem nodup_dedupFirst {α : Type} [DecidableEq α] (l : List α) :
    (dedupFirst l).Nodup := nodup_dedupSeen [] l

/-- `dedupFirst` output is an order-preserving subsequence of its input. -/
theorem sublist_dedupFirst {α : Type} [DecidableEq α] (l : List α) :
    (dedupFirst l).Sublist l := sublist_dedupSeen [] l

/-- A non-empty constant list deduplicates to a singleton. -/
theorem dedupFirst_all_eq {α : Type} [DecidableEq α] (x : α) (xs : List α)
    (h : ∀ y ∈ xs, y = x) : dedupFirst (x :: xs) = [x] := by
  rw [dedupFirst, dedupSeen, if_neg (List.not_mem_nil x)]
  rw [dedupSeen_all_seen _ _ (fun y hy => by simp [h y hy])]

/-- `extractUrls` is the first-occurrence deduplication of the regex matches. -/
theorem extractUrls_eq_dedup (text : List Char) :
    extractUrls text = dedupFirst (urlMatches text) := by
  cases h : urlMatches text
  · simp [extractUrls, h, dedupFirst, dedupSeen]
  · simp [extractUrls, h]

/-- C8: `extractUrls` returns the URL-shaped substrings of the text in order of
first occurrence with exact duplicates removed (first occurrence wins): the
result has no duplicates, is an order-preserving subsequence of the regex
matches with exactly their members, no match yields the empty sequence, and a
non-empty match list whose entries are all the same link yields that single
entry (covering both the singleton and the repeated-occurrence cases). -/
theorem C8_extract_urls (text : List Char) :
    (extractUrls text).Nodup ∧
    (extractUrls text).Sublist (urlMatches text) ∧
    (∀ u, u ∈ extractUrls text ↔ u ∈ urlMatches text) ∧
    (urlMatches text = [] → extractUrls text = []) ∧
    (∀ u, urlMatches text ≠ [] → (∀ v ∈ urlMatches text, v = u) →
      extractUrls text = [u]) := by
  refine ⟨?_, ?_, ?_, ?_, ?_⟩
  · rw [extractUrls_eq_dedup]; exact nodup_dedupFirst _
  · rw [extractUrls_eq_dedup]; exact sublist_dedupFirst _
  · intro u; rw [extractUrls_eq_dedup]; exact mem_dedupFirst _ u
  · intro h; rw [extractUrls_eq_dedup, h]; rfl
  · intro u hne hall
    rw [extractUrls_eq_dedup]
    cases h : urlMatches text with
    | nil => exact absurd h hne
    | cons m ms =>
      have hm : m = u := hall m (h ▸ List.mem_cons_self m ms)
      subst hm
      exact dedupFirst_all_eq m ms (fun y hy => hall y (h ▸ List.mem_cons_of_mem m hy))

/-- Witness for C8 at concrete inputs: a text repeating one link yields a
singleton and a text with no link yields the empty sequence. -/
theorem C8_witness :
    extractUrls (lit "see https://a.bc or https://a.bc again") = [lit "https://a.bc"] ∧
    extractUrls (lit "hello") = [] := by
  constructor
  · exact (C8_extract_urls _).2.2.2.2 (lit "https://a.bc") (by decide) (by decide)
  · exact (C8_extract_urls _).2.2.2.1 (by decide)

/-- C4: the error classifier is a pure function of the diagnostic text using
case-insensitive substring matching with first-match-wins fixed priority —
"private", then "geo"/"blocked", then "unavailable"/"deleted", then
"unsupported", then "sign in"/"login", else the generic message — and any text
containing "private" in any case with any surrounding text classifies as the
private-content message. -/
theorem C4_error_classifier :
    (∀ e : List Char,
      (includesL (lit "private") (lowerL e) = true →
        parseYtDlpError e = lit "This content is private or requires authentication") ∧
      (includesL (lit "private") (lowerL e) = false →
        (includesL (lit "geo") (lowerL e) || includesL (lit "blocked") (lowerL e)) = true →
        parseYtDlpError e = lit "This content is not available in your region") ∧
      (includesL (lit "private") (lowerL e) = false →
        (includesL (lit "geo") (lowerL e) || includesL (lit "blocked") (lowerL e)) = false →
        (includesL (lit "unavailable") (lowerL e) || includesL (lit "deleted") (lowerL e)) = true →
        parseYtDlpError e = lit "This content is no longer available") ∧
      (includesL (lit "private") (lowerL e) = false →
        (includesL (lit "geo") (lowerL e) || includesL (lit "blocked") (lowerL e)) = false →
        (includesL (lit "unavailable") (lowerL e) || includesL (lit "deleted") (lowerL e)) = false →
        includesL (lit "unsupported") (lowerL e) = true →
        parseYtDlpError e = lit "This URL is not supported") ∧
      (includesL (lit "private") (lowerL e) = false →
        (includesL (lit "geo") (lowerL e) || includesL (lit "blocked") (lowerL e)) = false →
        (includesL (lit "unavailable") (lowerL e) || includesL (lit "deleted") (lowerL e)) = false →
        includesL (lit "unsupported") (lowerL e) = false →
        (includesL (lit "sign in") (lowerL e) || includesL (lit "login") (lowerL e)) = true →
        parseYtDlpError e = lit "Authentication required to access this content") ∧
      (includesL (lit "private") (lowerL e) = false →
        (includesL (lit "geo") (lowerL e) || includesL (lit "blocked") (lowerL e)) = false →
        (includesL (lit "unavailable") (lowerL e) || includesL (lit "deleted") (lowerL e)) = false →
        includesL (lit "unsupported") (lowerL e) = false →
        (includesL (lit "sign in") (lowerL e) || includesL (lit "login") (lowerL e)) = false →
        parseYtDlpError e = lit "Failed to download content")) ∧
    (∀ pre mid post : List Char, lowerL mid = lit "private" →
      parseYtDlpError (pre ++ mid ++ post) =
        lit "This content is private or requires authentication") := by
  constructor
  · intro e
    refine ⟨?_, ?_, ?_, ?_, ?_, ?_⟩ <;>
      · intros
        simp only [parseYtDlpError]
        simp_all
  · intro pre mid post hmid
    have hinc : includesL (lit "private") (lowerL (pre ++ mid ++ post)) = true := by
      simp only [includesL, decide_eq_true_eq, lowerL, List.map_append]
      rw [lowerL] at hmid
      rw [hmid]
      exact List.infix_append _ _ _
    simp only [parseYtDlpError, hinc]
    simp

/-- Witness for C4: one concrete diagnostic text per priority tier. -/
theorem C4_witness :
    parseYtDlpError (lit "ERROR: Video is PRIVATE!") =
      lit "This content is private or requires authentication" ∧
    parseYtDlpError (lit "geo restricted") =
      lit "This content is not available in your region" ∧
    parseYtDlpError (lit "Video unavailable") =
      lit "This content is no longer available" ∧
    parseYtDlpError (lit "Unsupported URL") = lit "This URL is not supported" ∧
    parseYtDlpError (lit "please Sign In first") =
      lit "Authentication required to access this content" ∧
    parseYtDlpError (lit "ffmpeg exited with code 1") =
      lit "Failed to download content" := by
  refine ⟨?_, ?_, ?_, ?_, ?_, ?_⟩
  · exact (C4_error_classifier.1 _).1 (by decide)
  · exact (C4_error_classifier.1 _).2.1 (by decide) (by decide)
  · exact (C4_error_classifier.1 _).2.2.1 (by decide) (by decide) (by decide)
  · exact (C4_error_classifier.1 _).2.2.2.1 (by decide) (by decide) (by decide) (by decide)
  · exact (C4_error_classifier.1 _).2.2.2.2.1 (by decide) (by decide) (by decide) (by decide)
      (by decide)
  · exact (C4_error_classifier.1 _).2.2.2.2.2 (by decide) (by decide) (by decide) (by decide)
      (by decide)

/-- C6: for every comma-separated configuration string, `isAllowed(userId)`
returns true exactly when some token of the string parses (after trimming, via
JS `parseInt`) to that user id, and false for everything else; malformed and
empty tokens parse to `NaN`, are discarded, and contribute no member. -/
theorem C6_access_gate (env : List Char) (userId : Int) :
    isAllowed env userId = true ↔
      ∃ tok ∈ splitComma env, jsParseInt10 (jsTrim tok) = some userId := by
  rw [isAllowed]
  have hc : (allowedUserIds env).contains userId = true ↔ userId ∈ allowedUserIds env := by
    simp
  rw [hc]
  simp only [allowedUserIds, mem_dedupFirst, List.mem_filterMap, List.mem_map]
  constructor
  · rintro ⟨o, ⟨tok, htok, rfl⟩, hsome⟩
    exact ⟨tok, htok, hsome⟩
  · rintro ⟨tok, htok, hsome⟩
    exact ⟨jsParseInt10 (jsTrim tok), ⟨tok, htok, rfl⟩, hsome⟩

/-- Witness for C6: a string with well-formed, malformed and empty tokens
admits exactly its parseable integers. -/
theorem C6_witness :
    isAllowed (lit "123, abc, , 456") 456 = true ∧
    isAllowed (lit "123, abc, , 456") 99 = false := by
  constructor
  · exact (C6_access_gate _ _).mpr ⟨lit " 456", by decide, by decide⟩
  · refine Bool.eq_false_iff.mpr (fun h => ?_)
    have := (C6_access_gate (lit "123, abc, , 456") 99).mp h
    revert this
    decide

/-- C7 counterexample: for the URL `https://example.com/pic?ref=instagram.com`
the code selects the Instagram-specific argument branch (the selector at
argument index 3 is the Instagram one) although its host, `example.com`, does
not contain `instagram.com` — so the branch is not governed by a check on the
URL's host, refuting the claim as stated. -/
theorem C7_counterexample :
    (ytDlpArgs (lit "https://example.com/pic?ref=instagram.com") (lit "out") false)[3]? =
      some (instaSelector false) ∧
    includesL (lit "instagram.com")
      (specHost (lit "https://example.com/pic?ref=instagram.com")) = false ∧
    specHost (lit "https://example.com/pic?ref=instagram.com") = lit "example.com" := by
  decide

/-- C7 amended: the download invocation uses the platform-specific branch
(stricter selector plus forced codec re-encoding) if and only if
`instagram.com` occurs as a substring of the whole URL string; all other URLs
get the generic best-video-plus-audio arguments. -/
theorem C7_instagram_amended (url outputPath : List Char) (lower : Bool) :
    ((ytDlpArgs url outputPath lower)[3]? = some (instaSelector lower) ↔
      includesL (lit "instagram.com") url = true) ∧
    (isInstagramUrl url = true →
      ytDlpArgs url outputPath lower =
        [lit "--no-playlist", lit "--no-progress", lit "-f", instaSelector lower,
         lit "--merge-output-format", lit "mp4", lit "--postprocessor-args",
         lit "ffmpeg:-c:v libx264 -c:a aac -pix_fmt yuv420p -movflags +faststart",
         lit "-o", outputPath, url]) ∧
    (isInstagramUrl url = false →
      ytDlpArgs url outputPath lower =
        [lit "--no-playlist", lit "--no-progress", lit "-f", genericSelector lower,
         lit "--merge-output-format", lit "mp4", lit "--remux-video", lit "mp4",
         lit "-o", outputPath, url]) := by
  have hdef : isInstagramUrl url = includesL (lit "instagram.com") url := rfl
  refine ⟨?_, ?_, ?_⟩
  · rw [← hdef]
    cases h : isInstagramUrl url
    · simp only [ytDlpArgs, h, if_false, Bool.false_eq_true, iff_false]
      intro hcontr
      simp at hcontr
      cases lower <;> revert hcontr <;> decide
    · simp only [ytDlpArgs, h, if_true]
      simp
  · intro h
    simp [ytDlpArgs, h]
  · intro h
    simp [ytDlpArgs, h]

/-- Witness for C7 at concrete URLs: a real Instagram link gets the
Instagram arguments and a YouTube link gets the generic ones. -/
theorem C7_witness :
    ytDlpArgs (lit "https://www.instagram.com/reel/x") (lit "o") false =
      [lit "--no-playlist", lit "--no-progress", lit "-f", instaSelector false,
       lit "--merge-output-format", lit "mp4", lit "--postprocessor-args",
       lit "ffmpeg:-c:v libx264 -c:a aac -pix_fmt yuv420p -movflags +faststart",
       lit "-o", lit "o", lit "https://www.instagram.com/reel/x"] ∧
    ytDlpArgs (lit "https://youtube.com/watch?v=1") (lit "o") true =
      [lit "--no-playlist", lit "--no-progress", lit "-f", genericSelector true,
       lit "--merge-output-format", lit "mp4", lit "--remux-video", lit "mp4",
       lit "-o", lit "o", lit "https://youtube.com/watch?v=1"] := by
  constructor
  · exact (C7_instagram_amended _ _ _).2.1 (by decide)
  · exact (C7_instagram_amended _ _ _).2.2 (by decide)

/-- Global single-character replacement distributes over append. -/
theorem replaceAllU_append (target : Nat) (rep a b : List Nat) :
    replaceAllU target rep (a ++ b) =
      replaceAllU target rep a ++ replaceAllU target rep b := by
  simp [replaceAllU]

/-- The escape chain distributes over append. -/
theorem escapeHtml_append (a b : List Nat) :
    escapeHtml (a ++ b) = escapeHtml a ++ escapeHtml b := by
  simp [escapeHtml, replaceAllU_append]

/-- Escaping a single code unit leaves no raw angle bracket. -/
theorem escapeHtml_single_no_angle (c : Nat) : ∀ u ∈ escapeHtml [c], u ≠ 60 ∧ u ≠ 62 := by
  by_cases h38 : c = 38
  · subst h38; decide
  · by_cases h60 : c = 60
    · subst h60; decide
    · by_cases h62 : c = 62
      · subst h62; decide
      · intro u hu
        have he : escapeHtml [c] = [c] := by
          simp [escapeHtml, replaceAllU, h38, h60, h62]
        rw [he] at hu
        simp at hu
        subst hu
        exact ⟨h60, h62⟩

/-- The escaped title contains no raw `<` (60) or `>` (62) unit. -/
theorem escapeHtml_no_angle (t : List Nat) : ∀ u ∈ escapeHtml t, u ≠ 60 ∧ u ≠ 62 := by
  induction t with
  | nil => simp [escapeHtml, replaceAllU]
  | cons c t ih =>
    intro u hu
    have hc : (c :: t : List Nat) = [c] ++ t := rfl
    rw [hc, escapeHtml_append, List.mem_append] at hu
    cases hu with
    | inl h => exact escapeHtml_single_no_angle c u h
    | inr h => exact ih u h

/-- C9: the caption is an HTML-escaped title line (present only for a present,
non-empty, non-placeholder title; with no raw `<`/`>` left in the escaped
title) followed by the source-link line; its length never exceeds 1024 UTF-16
code units, and an over-budget caption is truncated to exactly 1024 units
ending with the trailing `...` marker. -/
theorem C9_caption (url : List Nat) (title : Option (List Nat)) :
    (buildCaption url title).length ≤ 1024 ∧
    ((rawCaption url title).length ≤ 1024 → buildCaption url title = rawCaption url title) ∧
    (1024 < (rawCaption url title).length →
      (buildCaption url title).length = 1024 ∧
      buildCaption url title = (rawCaption url title).take 1021 ++ asciiUnits "..." ∧
      asciiUnits "..." <:+ buildCaption url title) ∧
    (∀ t, ∀ u ∈ escapeHtml t, u ≠ 60 ∧ u ≠ 62) ∧
    (title = none ∨ title = some [] ∨ title = some (asciiUnits "Unknown") →
      rawCaption url title = linkLineU url) ∧
    (∀ t, title = some t → t ≠ [] → t ≠ asciiUnits "Unknown" →
      rawCaption url title =
        asciiUnits "<b>" ++ escapeHtml t ++ asciiUnits "</b>\n" ++ linkLineU url) := by
  refine ⟨?_, ?_, ?_, ?_, ?_, ?_⟩
  · by_cases h : 1024 < (rawCaption url title).length
    · have h1021 : ((rawCaption url title).take 1021).length = 1021 := by
        rw [List.length_take]
        omega
      simp only [buildCaption, if_pos (show (rawCaption url title).length > 1024 from h),
        List.length_append, h1021]
      decide
    · simp only [buildCaption, if_neg (show ¬(rawCaption url title).length > 1024 from h)]
      omega
  · intro h
    simp only [buildCaption, if_neg (by omega : ¬(rawCaption url title).length > 1024)]
  · intro h
    have h1021 : ((rawCaption url title).take 1021).length = 1021 := by
      rw [List.length_take]
      omega
    refine ⟨?_, ?_, ?_⟩
    · simp only [buildCaption, if_pos (show (rawCaption url title).length > 1024 from h),
        List.length_append, h1021]
      decide
    · simp only [buildCaption, if_pos (show (rawCaption url title).length > 1024 from h)]
    · simp only [buildCaption, if_pos (show (rawCaption url title).length > 1024 from h)]
      exact ⟨(rawCaption url title).take 1021, rfl⟩
  · exact escapeHtml_no_angle
  · rintro (h | h | h) <;> subst h <;> simp [rawCaption]
  · intro t ht h1 h2
    subst ht
    simp [rawCaption, h1, h2, List.append_assoc]

/-- Witness for C9: a short caption is returned untruncated; a 1200-character
URL forces truncation to exactly 1024 units ending in `...`. -/
theorem C9_witness :
    buildCaption (asciiUnits "https://a.bc") none = rawCaption (asciiUnits "https://a.bc") none ∧
    (buildCaption (List.replicate 1200 97) none).length = 1024 ∧
    asciiUnits "..." <:+ buildCaption (List.replicate 1200 97) none := by
  refine ⟨?_, ?_, ?_⟩
  · exact (C9_caption _ _).2.1 (by decide)
  · exact ((C9_caption _ _).2.2.1 (by decide)).1
  · exact ((C9_caption _ _).2.2.1 (by decide)).2.2

/-- The lower-quality tier spawns exactly one process, with the
lower-quality arguments. -/
theorem spawnArgs_dlq (cfg : DownloaderConfig) (rid url : List Char) (w : DlWorld) :
    spawnArgsOf (downloadLowerQuality cfg rid url w).2 =
      [ytDlpArgs url (outputPathOf (tempDirOf rid)) true] := by
  by_cases h : (runYtDlp (tempDirOf rid) w.run2).result.success = false
  · simp [downloadLowerQuality, h, spawnArgsOf]
  · cases hs : w.stat2 <;> simp [downloadLowerQuality, h, hs, spawnArgsOf]

/-- C1: when the first attempt succeeds with an oversize output, `download`
performs exactly one additional attempt — its trace is the first attempt plus
exactly the lower-quality trace, with exactly two spawns, the second using the
height-capped (`height<=480`) selector — and returns whatever that second
attempt yields, without re-checking the second output's size (a successful
second attempt of any size `s2`, even above the limit, is returned as a
success of size `s2`) and without a third attempt. -/
theorem C1_oversize_single_retry (cfg : DownloaderConfig) (rid url : List Char)
    (w : DlWorld) (s1 : Nat)
    (h1 : (runYtDlp (tempDirOf rid) w.run1).result.success = true)
    (h2 : w.stat1 = .ok s1)
    (h3 : oversize cfg s1 = true) :
    (download cfg rid url w).1 = (downloadLowerQuality cfg rid url w).1 ∧
    (download cfg rid url w).2 =
      [Act.createDir (tempDirOf rid),
       Act.spawnProc (ytDlpArgs url (outputPathOf (tempDirOf rid)) false),
       Act.remove (tempDirOf rid)] ++ (downloadLowerQuality cfg rid url w).2 ∧
    spawnArgsOf (download cfg rid url w).2 =
      [ytDlpArgs url (outputPathOf (tempDirOf rid)) false,
       ytDlpArgs url (outputPathOf (tempDirOf rid)) true] ∧
    (∀ sel, (ytDlpArgs url (outputPathOf (tempDirOf rid)) true)[3]? = some sel →
      includesL (lit "height<=480") sel = true) ∧
    (∀ s2, w.stat2 = .ok s2 →
      (runYtDlp (tempDirOf rid) w.run2).result.success = true →
      (download cfg rid url w).1.success = true ∧
      (download cfg rid url w).1.fileSize = some s2) := by
  have hne : ¬((runYtDlp (tempDirOf rid) w.run1).result.success = false) := by
    rw [h1]; decide
  have hd : download cfg rid url w =
      ((downloadLowerQuality cfg rid url w).1,
        [Act.createDir (tempDirOf rid),
         Act.spawnProc (ytDlpArgs url (outputPathOf (tempDirOf rid)) false),
         Act.remove (tempDirOf rid)] ++ (downloadLowerQuality cfg rid url w).2) := by
    simp [download, hne, h2, h3]
  refine ⟨by rw [hd], by rw [hd], ?_, ?_, ?_⟩
  · rw [hd]
    simp [spawnArgsOf, spawnArgs_dlq cfg rid url w]
    have := spawnArgs_dlq cfg rid url w
    rw [spawnArgsOf] at this
    simp [this]
  · intro sel hsel
    cases hi : isInstagramUrl url <;> rw [ytDlpArgs, hi] at hsel <;> simp at hsel <;>
      rw [← hsel] <;> decide
  · intro s2 hs2 hsucc2
    have hne2 : ¬((runYtDlp (tempDirOf rid) w.run2).result.success = false) := by
      rw [hsucc2]; decide
    rw [hd]
    simp [downloadLowerQuality, hne2, hs2]

/-- Witness for C1: a 60 MB first output under a 49 MB limit triggers the
retry, and a 55 MB — still oversize — second output is returned as a success. -/
theorem C1_witness :
    oversize ⟨120, 49⟩ 57671680 = true ∧
    (download ⟨120, 49⟩ (lit "r") (lit "https://a.bc")
      ⟨⟨true, .close 0 [] (some [lit "v.mp4"])⟩, .ok 62914560,
       ⟨true, .close 0 [] (some [lit "v.mp4"])⟩, .ok 57671680⟩).1.success = true ∧
    (download ⟨120, 49⟩ (lit "r") (lit "https://a.bc")
      ⟨⟨true, .close 0 [] (some [lit "v.mp4"])⟩, .ok 62914560,
       ⟨true, .close 0 [] (some [lit "v.mp4"])⟩, .ok 57671680⟩).1.fileSize =
      some 57671680 := by
  refine ⟨by decide, ?_⟩
  have h := C1_oversize_single_retry ⟨120, 49⟩ (lit "r") (lit "https://a.bc")
    ⟨⟨true, .close 0 [] (some [lit "v.mp4"])⟩, .ok 62914560,
     ⟨true, .close 0 [] (some [lit "v.mp4"])⟩, .ok 57671680⟩ 62914560
    (by decide) (by decide) (by decide)
  exact h.2.2.2.2 57671680 (by decide) (by decide)

/-- C2: for each of the two attempt tiers, if the child process has not exited
within the configured timeout the process is killed and the attempt resolves
to the `Download timeout` failure, after which the orchestrator removes the
workspace; and if the process exits (normally or with a spawn error) before
the deadline, `clearTimeout` cancels the timer, which then never fires (and
never kills).  The configurable timeout defaults to 120 seconds. -/
theorem C2_timeout_behavior (cfg : DownloaderConfig) (rid url : List Char) (w : DlWorld) :
    (w.run1.exitsWithinTimeout = false →
      (runYtDlp (tempDirOf rid) w.run1).killed = true ∧
      (runYtDlp (tempDirOf rid) w.run1).result =
        { success := false, error := some (lit "Download timeout") } ∧
      (download cfg rid url w).1 =
        { success := false, error := some (lit "Download timeout") } ∧
      Act.remove (tempDirOf rid) ∈ (download cfg rid url w).2) ∧
    (w.run1.exitsWithinTimeout = true →
      (runYtDlp (tempDirOf rid) w.run1).timerCleared = true ∧
      (runYtDlp (tempDirOf rid) w.run1).killed = false) ∧
    (w.run2.exitsWithinTimeout = false →
      (runYtDlp (tempDirOf rid) w.run2).killed = true ∧
      (downloadLowerQuality cfg rid url w).1 =
        { success := false, error := some (lit "Download timeout") } ∧
      Act.remove (tempDirOf rid) ∈ (downloadLowerQuality cfg rid url w).2) ∧
    (w.run2.exitsWithinTimeout = true →
      (runYtDlp (tempDirOf rid) w.run2).timerCleared = true ∧
      (runYtDlp (tempDirOf rid) w.run2).killed = false) ∧
    defaultDownloadTimeout = 120 := by
  refine ⟨?_, ?_, ?_, ?_, rfl⟩
  · intro h
    have hr : runYtDlp (tempDirOf rid) w.run1 =
        { timerCleared := false, killed := true,
          result := { success := false, error := some (lit "Download timeout") } } := by
      rw [runYtDlp, h]
      simp
    refine ⟨by rw [hr], by rw [hr], ?_, ?_⟩
    · simp [download, hr]
    · simp [download, hr]
  · intro h
    rw [runYtDlp, h]
    cases w.run1.exit <;> simp
  · intro h
    have hr : runYtDlp (tempDirOf rid) w.run2 =
        { timerCleared := false, killed := true,
          result := { success := false, error := some (lit "Download timeout") } } := by
      rw [runYtDlp, h]
      simp
    refine ⟨by rw [hr], ?_, ?_⟩
    · simp [downloadLowerQuality, hr]
    · simp [downloadLowerQuality, hr]
  · intro h
    rw [runYtDlp, h]
    cases w.run2.exit <;> simp

/-- Witness for C2: a world whose runs outlive the deadline exhibits the kill,
the timeout failure and the workspace removal; worlds exiting in time (spawn
error and normal close) exhibit the cancelled timer. -/
theorem C2_witness :
    (runYtDlp (tempDirOf (lit "r")) ⟨false, .close 0 [] none⟩).killed = true ∧
    (download ⟨120, 49⟩ (lit "r") (lit "u")
      ⟨⟨false, .close 0 [] none⟩, .ok 0, ⟨false, .close 0 [] none⟩, .ok 0⟩).1 =
      { success := false, error := some (lit "Download timeout") } ∧
    Act.remove (tempDirOf (lit "r")) ∈
      (download ⟨120, 49⟩ (lit "r") (lit "u")
        ⟨⟨false, .close 0 [] none⟩, .ok 0, ⟨false, .close 0 [] none⟩, .ok 0⟩).2 ∧
    (runYtDlp (tempDirOf (lit "r")) ⟨true, .spawnErr (lit "ENOENT")⟩).timerCleared = true ∧
    (runYtDlp (tempDirOf (lit "r")) ⟨true, .close 0 [] (some [lit "a.mp4"])⟩).timerCleared =
      true := by
  have hA := C2_timeout_behavior ⟨120, 49⟩ (lit "r") (lit "u")
    ⟨⟨false, .close 0 [] none⟩, .ok 0, ⟨false, .close 0 [] none⟩, .ok 0⟩
  have hB := C2_timeout_behavior ⟨120, 49⟩ (lit "r") (lit "u")
    ⟨⟨true, .spawnErr (lit "ENOENT")⟩, .ok 0, ⟨true, .close 0 [] (some [lit "a.mp4"])⟩, .ok 0⟩
  refine ⟨(hA.1 rfl).1, (hA.1 rfl).2.2.1, (hA.1 rfl).2.2.2, (hB.2.1 rfl).1, (hB.2.2.2.1 rfl).1⟩

/-- C3 is violated by the code: on a successful first attempt followed by
delivery, the only removal the request ever performs is
`cleanupTempDir(result.filePath)` — the downloaded file — and the workspace
directory `temp/r1` itself is never removed, contradicting the claim that the
workspace directory is removed on every outcome including successful
delivery. -/
theorem C3_success_leaves_workspace :
    (download ⟨120, 49⟩ (lit "r1") (lit "https://a.bc")
      ⟨⟨true, .close 0 [] (some [lit "My Clip.mp4"])⟩, .ok 10485760,
       ⟨true, .close 0 [] none⟩, .ok 0⟩).1.success = true ∧
    processUrlActs ⟨120, 49⟩ (lit "r1") (lit "https://a.bc")
      ⟨⟨true, .close 0 [] (some [lit "My Clip.mp4"])⟩, .ok 10485760,
       ⟨true, .close 0 [] none⟩, .ok 0⟩ =
      [Act.createDir (tempDirOf (lit "r1")),
       Act.spawnProc (ytDlpArgs (lit "https://a.bc") (outputPathOf (tempDirOf (lit "r1"))) false),
       Act.remove (pathJoin (tempDirOf (lit "r1")) (lit "My Clip.mp4"))] ∧
    Act.remove (tempDirOf (lit "r1")) ∉
      processUrlActs ⟨120, 49⟩ (lit "r1") (lit "https://a.bc")
        ⟨⟨true, .close 0 [] (some [lit "My Clip.mp4"])⟩, .ok 10485760,
         ⟨true, .close 0 [] none⟩, .ok 0⟩ := by
  decide

/-- C5 counterexample: an authorized user with no session state (so neither
Busy nor TooSoon applies) sends `hello`; the claim says the message is then
accepted with the in-progress flag set, but the handler answers the no-URL
prompt and writes no session entry at all. -/
theorem C5_counterexample_no_url :
    (messageStep true (fun _ => none) 1 (lit "hello") 10000 10500 .completed).1 =
      Gate.noUrl ∧
    (messageStep true (fun _ => none) 1 (lit "hello") 10000 10500 .completed).2.2 1 =
      none := by
  constructor
  · decide
  · decide

/-- C5 amended (restricted to messages from authorized users whose text
contains at least one extractable URL): an in-progress session is rejected as
Busy, otherwise less than 5000 ms since the last stamped time is rejected as
TooSoon, otherwise the batch is accepted with the flag set and the time
stamped to the acceptance instant, and on completion the flag is cleared and
the time re-stamped to the completion instant. -/
theorem C5_tracker_amended (sessions : Int → Option SessionData) (uid : Int)
    (text : List Char) (now endTime : Int) (batch : BatchOutcome)
    (hurl : extractUrls text ≠ []) :
    (∀ s, sessions uid = some s → s.isProcessing = true →
      (messageStep true sessions uid text now endTime batch).1 = Gate.busy ∧
      (messageStep true sessions uid text now endTime batch).2.2 = sessions) ∧
    (∀ s, sessions uid = some s → s.isProcessing = false → now - s.lastRequestTime < 5000 →
      (messageStep true sessions uid text now endTime batch).1 = Gate.tooSoon ∧
      (messageStep true sessions uid text now endTime batch).2.2 = sessions) ∧
    ((sessions uid = none ∨
        ∃ s, sessions uid = some s ∧ s.isProcessing = false ∧
          ¬(now - s.lastRequestTime < 5000)) →
      (messageStep true sessions uid text now endTime batch).1 =
        Gate.accepted (extractUrls text) ∧
      (messageStep true sessions uid text now endTime batch).2.1 uid =
        some ⟨true, now⟩ ∧
      (messageStep true sessions uid text now endTime batch).2.2 uid =
        some ⟨false, endTime⟩) := by
  have htext : ¬(text = []) := fun h => hurl (by rw [h]; rfl)
  refine ⟨?_, ?_, ?_⟩
  · intro s hs hproc
    have hg : gateOf true (sessions uid) now text = Gate.busy := by
      simp [gateOf, htext, optIsProcessing, hs, hproc]
    constructor <;> simp [messageStep, hg]
  · intro s hs hproc hcool
    have hg : gateOf true (sessions uid) now text = Gate.tooSoon := by
      simp [gateOf, htext, optIsProcessing, cooldownHit, hs, hproc, hcool]
    constructor <;> simp [messageStep, hg]
  · intro hidle
    have hproc : optIsProcessing (sessions uid) = false := by
      rcases hidle with h | ⟨s, hs, hp, _⟩
      · simp [optIsProcessing, h]
      · simp [optIsProcessing, hs, hp]
    have hcool : cooldownHit (sessions uid) now = false := by
      rcases hidle with h | ⟨s, hs, _, hc⟩
      · simp [cooldownHit, h]
      · simp [cooldownHit, hs, hc]
    have hg : gateOf true (sessions uid) now text = Gate.accepted (extractUrls text) := by
      rw [gateOf, if_neg htext]
      simp only [Bool.true_eq_false, if_false, hproc, hcool]
      cases hm : extractUrls text with
      | nil => exact absurd hm hurl
      | cons u us => simp
    refine ⟨?_, ?_, ?_⟩ <;> cases batch <;> simp [messageStep, hg]

/-- Witness for C5 at concrete session states: busy, too-soon and accepted,
with the accepted run stamping acceptance and completion times. -/
theorem C5_witness :
    (messageStep true (fun _ => some ⟨true, 0⟩) 1 (lit "go https://a.bc") 10000 10500
      .completed).1 = Gate.busy ∧
    (messageStep true (fun _ => some ⟨false, 9000⟩) 1 (lit "go https://a.bc") 10000 10500
      .completed).1 = Gate.tooSoon ∧
    (messageStep true (fun _ => some ⟨false, 0⟩) 1 (lit "go https://a.bc") 10000 10500
      .completed).1 = Gate.accepted (extractUrls (lit "go https://a.bc")) ∧
    (messageStep true (fun _ => some ⟨false, 0⟩) 1 (lit "go https://a.bc") 10000 10500
      .completed).2.1 1 = some ⟨true, 10000⟩ ∧
    (messageStep true (fun _ => some ⟨false, 0⟩) 1 (lit "go https://a.bc") 10000 10500
      .completed).2.2 1 = some ⟨false, 10500⟩ := by
  have hurl : extractUrls (lit "go https://a.bc") ≠ [] := by decide
  have h1 := (C5_tracker_amended (fun _ => some ⟨true, 0⟩) 1 (lit "go https://a.bc")
    10000 10500 .completed hurl).1 ⟨true, 0⟩ rfl rfl
  have h2 := (C5_tracker_amended (fun _ => some ⟨false, 9000⟩) 1 (lit "go https://a.bc")
    10000 10500 .completed hurl).2.1 ⟨false, 9000⟩ rfl rfl (by decide)
  have h3 := (C5_tracker_amended (fun _ => some ⟨false, 0⟩) 1 (lit "go https://a.bc")
    10000 10500 .completed hurl).2.2 (Or.inr ⟨⟨false, 0⟩, rfl, rfl, by decide⟩)
  exact ⟨h1.1, h2.1, h3.1, h3.2.1, h3.2.2⟩

/-- The gate decision of a handler pass is `gateOf` on the user's entry. -/
theorem messageStep_fst (allowed : Bool) (sessions : Int → Option SessionData)
    (uid : Int) (text : List Char) (now endTime : Int) (batch : BatchOutcome) :
    (messageStep allowed sessions uid text now endTime batch).1 =
      gateOf allowed (sessions uid) now text := by
  rw [messageStep]
  cases h : gateOf allowed (sessions uid) now text <;> simp

/-- C10: for every accepted batch, even when an exception escapes the per-URL
processing (`BatchOutcome.threw`), the `finally` block clears the in-progress
flag and re-stamps the time, so a later message outside the cooldown window is
accepted again — no user is permanently stuck in the Busy state. -/
theorem C10_finally_resets (allowed : Bool) (sessions : Int → Option SessionData)
    (uid : Int) (text : List Char) (now endTime : Int) (urls : List (List Char))
    (hacc : (messageStep allowed sessions uid text now endTime .threw).1 =
      Gate.accepted urls) :
    (messageStep allowed sessions uid text now endTime .threw).2.2 uid =
      some ⟨false, endTime⟩ ∧
    (∀ text2 now2 endTime2 batch2,
      extractUrls text2 ≠ [] →
      ¬(now2 - endTime < 5000) →
      (messageStep allowed
          (messageStep allowed sessions uid text now endTime .threw).2.2
          uid text2 now2 endTime2 batch2).1 =
        Gate.accepted (extractUrls text2)) := by
  have hg : gateOf allowed (sessions uid) now text = Gate.accepted urls := by
    cases hg0 : gateOf allowed (sessions uid) now text <;>
      rw [messageStep, hg0] at hacc <;> simp_all
  have hallow : allowed = true := by
    by_contra hfalse
    have : allowed = false := by cases allowed <;> simp_all
    by_cases ht : text = []
    · rw [gateOf, if_pos ht] at hg; exact Gate.noConfusion hg
    · rw [gateOf, if_neg ht, this] at hg; simp at hg
  subst hallow
  have hfin : (messageStep true sessions uid text now endTime .threw).2.2 uid =
      some ⟨false, endTime⟩ := by
    simp [messageStep, hg]
  refine ⟨hfin, ?_⟩
  intro text2 now2 endTime2 batch2 hurl2 hcool2
  have htext2 : ¬(text2 = []) := fun h => hurl2 (by rw [h]; rfl)
  have hg2 : gateOf true
      ((messageStep true sessions uid text now endTime .threw).2.2 uid) now2 text2 =
      Gate.accepted (extractUrls text2) := by
    rw [hfin, gateOf, if_neg htext2]
    simp only [optIsProcessing, cooldownHit]
    rw [if_neg (by simp), if_neg (by simp [hcool2]), if_neg (by simp [hcool2])]
    cases hm : extractUrls text2 with
    | nil => exact absurd hm hurl2
    | cons u us => simp
  rw [messageStep_fst]
  exact hg2

/-- Witness for C10: a batch that throws still resets the session, and a
message 6 s later is accepted. -/
theorem C10_witness :
    (messageStep true (fun _ => none) 1 (lit "https://a.bc") 0 1 .threw).2.2 1 =
      some ⟨false, 1⟩ ∧
    (messageStep true
        (messageStep true (fun _ => none) 1 (lit "https://a.bc") 0 1 .threw).2.2
        1 (lit "https://x.yz") 6000 6500 .completed).1 =
      Gate.accepted (extractUrls (lit "https://x.yz")) := by
  have h := C10_finally_resets true (fun _ => none) 1 (lit "https://a.bc") 0 1
    [lit "https://a.bc"] (by decide)
  exact ⟨h.1, h.2 (lit "https://x.yz") 6000 6500 .completed (by decide) (by decide)⟩

